import Mathlib

/-!  Verification of the contract-flow backend against its specification.

The Python sources under app/ are shallowly embedded: SQL tables become
lists of rows inside a `State` record, datetimes and UUIDs become natural
numbers, Python dicts of strings become association lists, and every
service or endpoint function becomes a pure Lean function that threads the
state explicitly.  A raised exception becomes an `Except` error value; a
commit is the returned state.
-/

/-- User, organization, contract ids and times are modelled as naturals
(UUIDs and datetimes in the source). -/
abbrev UserId := Nat

abbrev OrgId := Nat

abbrev Cid := Nat

abbrev Time := Nat

/-- app/models/types.py OrganizationRole. -/
inductive OrganizationRole where
  | admin
  | editor
  | viewer
deriving DecidableEq, Repr

/-- app/core/permission.py Permission, a Flag enum: each capability is one
bit (auto() assigns successive powers of two). -/
def VIEW_MEMBERS : Nat := 1

/-- Permission.INVITE_MEMBERS bit. -/
def INVITE_MEMBERS : Nat := 2

/-- Permission.REMOVE_MEMBERS bit. -/
def REMOVE_MEMBERS : Nat := 4

/-- Permission.EDIT_ORGANIZATION bit. -/
def EDIT_ORGANIZATION : Nat := 8

/-- Permission.MANAGES_CONTRACT bit. -/
def MANAGES_CONTRACT : Nat := 16

/-- app/core/permission.py ROLE_PERMISSIONS: the static role to capability
bitset table. -/
def ROLE_PERMISSIONS : OrganizationRole → Nat
  | .admin => VIEW_MEMBERS ||| INVITE_MEMBERS ||| REMOVE_MEMBERS |||
      EDIT_ORGANIZATION ||| MANAGES_CONTRACT
  | .editor => VIEW_MEMBERS ||| MANAGES_CONTRACT
  | .viewer => VIEW_MEMBERS

/-- Bitwise containment test: `bits & p` is non-zero (how the source tests
a Flag, e.g. `ROLE_PERMISSIONS[role] & Permission.VIEW_MEMBERS`). -/
def permHas (bits p : Nat) : Bool := bits &&& p != 0

/-- app/models/users.py User.has_permission: the stub that returns True for
every user and every permission ("all users have all permissions"). -/
def has_permission (_user : UserId) (_permission : Nat) : Bool := true

/-- app/models/contract.py ContractStatus. -/
inductive ContractStatus where
  | draft
  | pending
  | active
  | expired
  | terminated
  | rejected
deriving DecidableEq, Repr

/-- app/models/contract.py ContractTemplateType. -/
inductive ContractTemplateType where
  | nda
  | freelance
  | collaboration
  | custom
deriving DecidableEq, Repr

/-- app/models/contract.py ContractPartyType. -/
inductive ContractPartyType where
  | individual
  | organization
  | representative
deriving DecidableEq, Repr

/-- Contract content: the JSON dict stored in ContractVersion.content,
modelled as an association list from keys to string values. -/
abbrev Content := List (String × String)

/-- Python dict.get(key, default) on a Content value. -/
def contentGet (c : Content) (k : String) (dflt : String) : String :=
  match c.find? (fun kv => decide (kv.1 = k)) with
  | some kv => kv.2
  | none => dflt

/-- app/models/contract.py Contract row. -/
structure Contract where
  id : Cid
  title : String
  description : Option String
  template_type : ContractTemplateType
  status : ContractStatus
  effective_date : Option Time
  expiration_date : Option Time
  owner_id : UserId
  organization_id : Option OrgId
  current_version : Nat
  last_activity_by_id : UserId
  last_activity : Time
  updated_at : Time
deriving DecidableEq, Repr

/-- app/models/contract.py ContractVersion row. -/
structure ContractVersion where
  contract_id : Cid
  version : Nat
  content : Content
  modified_by_id : UserId
  change_summary : Option String
  rendered_html : Option String
  pdf_path : Option String
deriving DecidableEq, Repr

/-- app/models/contract.py ContractParty row. -/
structure ContractParty where
  contract_id : Cid
  party_type : ContractPartyType
  user_id : Option UserId
  organization_id : Option OrgId
  external_name : Option String
  external_email : Option String
  signature_required : Bool
deriving DecidableEq, Repr

/-- app/models/organization.py OrganizationUser row: the (organization,
user) membership pair with its role. -/
structure OrganizationUser where
  organization_id : OrgId
  user_id : UserId
  role : OrganizationRole
deriving DecidableEq, Repr

/-- app/models/invitations.py Invitation row. -/
structure Invitation where
  id : Nat
  organization_id : OrgId
  email : String
  role : OrganizationRole
  token : String
  expires_at : Time
deriving DecidableEq, Repr

/-- The database: one list of rows per table, plus the id the next flush
assigns (UUID generation in the source).  `organizations` holds the ids of
existing Organization rows. -/
structure State where
  contracts : List Contract
  versions : List ContractVersion
  parties : List ContractParty
  org_users : List OrganizationUser
  invitations : List Invitation
  organizations : List OrgId
  next_id : Nat
deriving DecidableEq, Repr

/-- An HTTPException: status code plus detail string. -/
structure ApiErr where
  code : Nat
  detail : String
deriving DecidableEq, Repr

/-- app/schemas/contract.py ContractPartyCreate (validated shape). -/
structure ContractPartyCreate where
  party_type : ContractPartyType
  user_id : Option UserId
  organization_id : Option OrgId
  external_name : Option String
  external_email : Option String
  signature_required : Bool
deriving DecidableEq, Repr

/-- app/schemas/contract.py ContractCreate. -/
structure ContractCreate where
  title : String
  description : Option String
  template_type : ContractTemplateType
  effective_date : Option Time
  expiration_date : Option Time
  organization_id : Option OrgId
  parties : List ContractPartyCreate
  content : Content
deriving DecidableEq, Repr

/-- app/schemas/contract.py ContractUpdate: every field optional, None
meaning "not supplied". -/
structure ContractUpdate where
  title : Option String
  description : Option String
  effective_date : Option Time
  expiration_date : Option Time
  status : Option ContractStatus
deriving DecidableEq, Repr

/-- app/schemas/contract.py ContractVersionCreate, alias of
ContractContentBase: only content and change_summary, no version field. -/
structure ContractVersionCreate where
  content : Content
  change_summary : Option String
deriving DecidableEq, Repr

/-- Lookup of a contract row by id (`select(Contract).where(Contract.id ==
contract_id)` / `db.get(Contract, contract_id)`). -/
def findContract (s : State) (contract_id : Cid) : Option Contract :=
  s.contracts.find? (fun c => decide (c.id = contract_id))

/-- Replace the contract row with the given id (the effect of mutating the
mapped object and committing). -/
def replaceContract (l : List Contract) (contract_id : Cid) (c : Contract) :
    List Contract :=
  l.map (fun x => if x.id = contract_id then c else x)

/-- The setattr loop of update_contract: each field of the patch that is
not None overwrites the contract field; None fields are skipped. -/
def applyPatch (c : Contract) (p : ContractUpdate) : Contract :=
  { c with
    title := p.title.getD c.title
    description := match p.description with
      | some d => some d
      | none => c.description
    effective_date := match p.effective_date with
      | some d => some d
      | none => c.effective_date
    expiration_date := match p.expiration_date with
      | some d => some d
      | none => c.expiration_date
    status := p.status.getD c.status }

/-- Python comparison of a ContractStatus with an Optional[ContractStatus]:
an enum value is never equal to None. -/
def statusEqOpt (st : ContractStatus) (o : Option ContractStatus) : Bool :=
  match o with
  | some st2 => decide (st = st2)
  | none => false

/-- app/services/contract_service.py update_contract.  The source first
applies every non-None patch field with setattr, and only afterwards runs
the status-transition check, comparing the already-patched
`contract.status` with `contract_data.status`; on the check failing it
raises ValueError before the commit, so the stored row is unchanged. -/
def update_contract (s : State) (contract_id : Cid) (user_id : UserId)
    (contract_data : ContractUpdate) (now : Time) : Except String State :=
  match findContract s contract_id with
  | none => .error "Contract not found"
  | some contract =>
    let patched := applyPatch contract contract_data
    if !statusEqOpt patched.status contract_data.status &&
        (decide (patched.status = .active) &&
          !statusEqOpt .active contract_data.status) then
      .error "Cannot change status from ACTIVE to non-ACTIVE"
    else
      let c2 := { patched with
        last_activity_by_id := user_id,
        last_activity := now,
        updated_at := now }
      .ok { s with contracts := replaceContract s.contracts contract_id c2 }

/-- Finding a contract row by id still succeeds, and returns the
replacement, after replaceContract substitutes a row carrying that id. -/
theorem find_replaceContract (l : List Contract) (cid : Cid)
    (c c2 : Contract)
    (h : l.find? (fun x => decide (x.id = cid)) = some c)
    (h2 : c2.id = cid) :
    (replaceContract l cid c2).find? (fun x => decide (x.id = cid)) =
      some c2 := by
  induction l with
  | nil => simp at h
  | cons x xs ih =>
    by_cases hx : x.id = cid
    · simp [replaceContract, hx, List.find?, h2]
    · rw [List.find?] at h
      simp only [hx, decide_eq_true_eq] at h
      simp only [replaceContract, List.map, if_neg hx] at *
      rw [List.find?]
      simp only [hx, decide_eq_true_eq]
      exact ih h

/-- Sample contract in status Active, used to evaluate update_contract. -/
def cActive : Contract :=
  { id := 1, title := "Service agreement", description := none,
    template_type := .custom, status := .active, effective_date := none,
    expiration_date := none, owner_id := 7, organization_id := none,
    current_version := 1, last_activity_by_id := 7, last_activity := 10,
    updated_at := 10 }

/-- State holding only cActive. -/
def stActive : State :=
  { contracts := [cActive], versions := [], parties := [], org_users := [],
    invitations := [], organizations := [], next_id := 2 }

/-- Patch that requests status Terminated and nothing else. -/
def patchTerminate : ContractUpdate :=
  { title := none, description := none, effective_date := none,
    expiration_date := none, status := some .terminated }

/-- Patch that changes only the title. -/
def patchTitleOnly : ContractUpdate :=
  { title := some "Renamed agreement", description := none,
    effective_date := none, expiration_date := none, status := none }

/-- C1: the status-transition rule is evaluated only after the setattr loop
has already copied the patch status onto the contract, so for an Active
contract a patch with status Terminated commits successfully with the
status changed (no InvalidTransition), while a patch on an Active contract
that omits status spuriously raises the InvalidTransition error. -/
theorem c1_active_gate_bypassed_in_code :
    (∃ s', update_contract stActive 1 7 patchTerminate 99 = .ok s' ∧
      (findContract s' 1).map (fun c => c.status) =
        some ContractStatus.terminated) ∧
    update_contract stActive 1 7 patchTitleOnly 99 =
      .error "Cannot change status from ACTIVE to non-ACTIVE" := by
  exact ⟨⟨_, rfl, rfl⟩, rfl⟩

/-- C10: whenever update_contract succeeds, every patch field that is None
leaves the corresponding contract field as it was, and an optional field
can end up None only when it already was None (no field is ever nulled by
a metadata update). -/
theorem c10_none_fields_untouched (s : State) (cid : Cid) (uid : UserId)
    (p : ContractUpdate) (now : Time) (s' : State)
    (h : update_contract s cid uid p now = .ok s')
    (c : Contract) (hc : findContract s cid = some c) :
    ∃ c', findContract s' cid = some c' ∧
      (p.title = none → c'.title = c.title) ∧
      (p.description = none → c'.description = c.description) ∧
      (p.effective_date = none → c'.effective_date = c.effective_date) ∧
      (p.expiration_date = none → c'.expiration_date = c.expiration_date) ∧
      (p.status = none → c'.status = c.status) ∧
      (c'.description = none → c.description = none) ∧
      (c'.effective_date = none → c.effective_date = none) ∧
      (c'.expiration_date = none → c.expiration_date = none) := by
  unfold update_contract at h
  rw [hc] at h
  dsimp only at h
  split at h
  · exact absurd h (by simp)
  · injection h with h2
    subst h2
    have hcid : c.id = cid := by
      have := List.find?_some hc
      simpa using this
    refine ⟨_, find_replaceContract s.contracts cid c _ hc
      (by simpa [applyPatch] using hcid), ?_, ?_, ?_, ?_, ?_, ?_, ?_, ?_⟩
    · intro ht; simp [applyPatch, ht]
    · intro ht; simp [applyPatch, ht]
    · intro ht; simp [applyPatch, ht]
    · intro ht; simp [applyPatch, ht]
    · intro ht; simp [applyPatch, ht]
    · intro ht
      simp only [applyPatch] at ht
      cases hd : p.description with
      | none => simpa [hd] using ht
      | some d => simp [hd] at ht
    · intro ht
      simp only [applyPatch] at ht
      cases hd : p.effective_date with
      | none => simpa [hd] using ht
      | some d => simp [hd] at ht
    · intro ht
      simp only [applyPatch] at ht
      cases hd : p.expiration_date with
      | none => simpa [hd] using ht
      | some d => simp [hd] at ht

/-- Sample contract in status Draft. -/
def cDraft : Contract :=
  { id := 3, title := "Draft deal", description := some "supply terms",
    template_type := .nda, status := .draft, effective_date := some 5,
    expiration_date := some 50, owner_id := 7, organization_id := none,
    current_version := 1, last_activity_by_id := 7, last_activity := 10,
    updated_at := 10 }

/-- State holding only cDraft. -/
def stDraft : State :=
  { contracts := [cDraft], versions := [], parties := [], org_users := [],
    invitations := [], organizations := [], next_id := 4 }

/-- The row cDraft becomes after a title-only update by user 8 at time 99. -/
def cDraftRenamed : Contract :=
  { cDraft with
    title := "Renamed agreement", last_activity_by_id := 8,
    last_activity := 99, updated_at := 99 }

/-- State stDraft after that update. -/
def stDraftUpdated : State :=
  { stDraft with contracts := [cDraftRenamed] }

/-- Witness for c10_none_fields_untouched at a concrete update. -/
theorem c10_none_fields_untouched_witness :
    ∃ c', findContract stDraftUpdated 3 = some c' ∧
      (patchTitleOnly.title = none → c'.title = cDraft.title) ∧
      (patchTitleOnly.description = none →
        c'.description = cDraft.description) ∧
      (patchTitleOnly.effective_date = none →
        c'.effective_date = cDraft.effective_date) ∧
      (patchTitleOnly.expiration_date = none →
        c'.expiration_date = cDraft.expiration_date) ∧
      (patchTitleOnly.status = none → c'.status = cDraft.status) ∧
      (c'.description = none → cDraft.description = none) ∧
      (c'.effective_date = none → cDraft.effective_date = none) ∧
      (c'.expiration_date = none → cDraft.expiration_date = none) :=
  c10_none_fields_untouched stDraft 3 8 patchTitleOnly 99 stDraftUpdated
    (by rfl) cDraft (by rfl)

/-- find? over an append when the first list has no match. -/
theorem find?_append_of_none {α : Type} (p : α → Bool) (l1 l2 : List α)
    (h : l1.find? p = none) : (l1 ++ l2).find? p = l2.find? p := by
  induction l1 with
  | nil => rfl
  | cons x xs ih =>
    rw [List.find?] at h
    rcases hx : p x with _ | _
    · rw [hx] at h
      simpa [List.find?, hx] using ih h
    · rw [hx] at h
      exact absurd h (by simp)

/-- find? over an append when the first list already holds a match. -/
theorem find?_append_of_some {α : Type} (p : α → Bool) (l1 l2 : List α)
    (a : α) (h : l1.find? p = some a) : (l1 ++ l2).find? p = some a := by
  induction l1 with
  | nil => simp at h
  | cons x xs ih =>
    rw [List.find?] at h
    rcases hx : p x with _ | _
    · rw [hx] at h
      simpa [List.find?, hx] using ih h
    · rw [hx] at h
      simpa [List.find?, hx] using h

/-- app/services/contract_service.py create_contract builds this Contract
row: status Draft, current_version 1, activity stamped, id assigned at
flush (modelled by the state counter). -/
def createdContractRow (s : State) (user_id : UserId)
    (contract_data : ContractCreate) (now : Time) : Contract :=
  { id := s.next_id, title := contract_data.title,
    description := contract_data.description,
    template_type := contract_data.template_type, status := .draft,
    effective_date := contract_data.effective_date,
    expiration_date := contract_data.expiration_date,
    owner_id := user_id,
    organization_id := contract_data.organization_id,
    current_version := 1, last_activity_by_id := user_id,
    last_activity := now, updated_at := now }

/-- The ContractVersion(version=1, ...) row built by create_contract. -/
def createdVersionRow (s : State) (user_id : UserId)
    (contract_data : ContractCreate) : ContractVersion :=
  { contract_id := s.next_id, version := 1,
    content := contract_data.content,
    modified_by_id := user_id,
    change_summary := some (contentGet contract_data.content
      "change_summary" "Initial contract creation"),
    rendered_html := none, pdf_path := none }

/-- The ContractParty rows built by create_contract, one per party spec. -/
def createdPartyRows (s : State) (contract_data : ContractCreate) :
    List ContractParty :=
  contract_data.parties.map (fun party =>
    { contract_id := s.next_id, party_type := party.party_type,
      user_id := party.user_id,
      organization_id := party.organization_id,
      external_name := party.external_name,
      external_email := party.external_email,
      signature_required := party.signature_required })

/-- Assembled create_contract: rows added, id counter advanced, the new
contract id returned; a single commit covers contract, version and
parties. -/
def create_contract (s : State) (user_id : UserId)
    (contract_data : ContractCreate) (now : Time) : State × Cid :=
  ({ s with
     contracts := s.contracts ++ [createdContractRow s user_id
       contract_data now],
     versions := s.versions ++ [createdVersionRow s user_id contract_data],
     parties := s.parties ++ createdPartyRows s contract_data,
     next_id := s.next_id + 1 }, s.next_id)

/-- The version-row query of get_contract_with_current_content:
`ContractVersion.contract_id == contract_id` and `version == v`, first
match. -/
def find_current_version (s : State) (contract_id : Cid) (v : Nat) :
    Option ContractVersion :=
  s.versions.find? (fun vr =>
    decide (vr.contract_id = contract_id ∧ vr.version = v))

/-- app/services/contract_service.py get_contract_with_current_content:
(None, None) when the contract is absent; otherwise the contract together
with the content of the row matching current_version, or an empty dict if
no such row exists. -/
def get_contract_with_current_content (s : State) (contract_id : Cid) :
    Option Contract × Option Content :=
  match findContract s contract_id with
  | none => (none, none)
  | some contract =>
    (some contract,
      some (match find_current_version s contract_id
          contract.current_version with
        | some v => v.content
        | none => []))

/-- app/services/contract_service.py create_contract_version: raises
"Contract not found" when the contract is absent; otherwise builds the new
row with version = current_version + 1 (the schema carries no version
number), advances the contract pointer and activity fields, and commits
row and pointer together. -/
def create_contract_version (s : State) (contract_id : Cid)
    (user_id : UserId) (version_data : ContractVersionCreate) (now : Time) :
    Except String (State × ContractVersion) :=
  match findContract s contract_id with
  | none => .error "Contract not found"
  | some contract =>
    let version : ContractVersion :=
      { contract_id := contract_id,
        version := contract.current_version + 1,
        content := version_data.content, modified_by_id := user_id,
        change_summary := version_data.change_summary,
        rendered_html := none, pdf_path := none }
    let contract2 : Contract :=
      { contract with
        current_version := contract.current_version + 1,
        last_activity_by_id := user_id, last_activity := now,
        updated_at := now }
    .ok ({ s with
           contracts := replaceContract s.contracts contract_id contract2,
           versions := s.versions ++ [version] }, version)

/-- C2: create_contract_version fails with the NotFound error when the
contract is absent; otherwise it returns, in one atomic step, a state in
which the new row (numbered current_version + 1, carrying exactly the
supplied content) is present and the contract pointer and activity fields
are advanced — the returned state is the only observable one, so the row
never exists without the advanced pointer or vice versa.  The creation
schema ContractVersionCreate has no version field, so no caller-supplied
number can be used. -/
theorem c2_version_increment_atomic (s : State) (cid : Cid) (uid : UserId)
    (vd : ContractVersionCreate) (now : Time) :
    (findContract s cid = none →
      create_contract_version s cid uid vd now =
        .error "Contract not found") ∧
    (∀ c, findContract s cid = some c →
      ∃ s' v, create_contract_version s cid uid vd now = .ok (s', v) ∧
        v.version = c.current_version + 1 ∧
        v.content = vd.content ∧
        v ∈ s'.versions ∧
        findContract s' cid = some
          { c with
            current_version := c.current_version + 1,
            last_activity_by_id := uid, last_activity := now,
            updated_at := now }) := by
  constructor
  · intro h
    unfold create_contract_version
    rw [h]
  · intro c hc
    have hcid : c.id = cid := by
      have := List.find?_some hc
      simpa using this
    unfold create_contract_version
    rw [hc]
    dsimp only
    refine ⟨_, _, rfl, rfl, rfl, ?_, ?_⟩
    · exact List.mem_append_right _ (List.mem_singleton_self _)
    · exact find_replaceContract s.contracts cid c _ hc (by simpa using hcid)

/-- Sample payload for a second version. -/
def vdSecond : ContractVersionCreate :=
  { content := [("sections", "second body")],
    change_summary := some "tightened clauses" }

/-- Witness for c2_version_increment_atomic at a concrete contract. -/
theorem c2_version_increment_atomic_witness :
    ∃ s' v, create_contract_version stDraft 3 9 vdSecond 77 = .ok (s', v) ∧
      v.version = cDraft.current_version + 1 ∧
      v.content = vdSecond.content ∧
      v ∈ s'.versions ∧
      findContract s' 3 = some
        { cDraft with
          current_version := cDraft.current_version + 1,
          last_activity_by_id := 9, last_activity := 77,
          updated_at := 77 } :=
  (c2_version_increment_atomic stDraft 3 9 vdSecond 77).2 cDraft (by rfl)

/-- Looking up the new id right after create_contract yields the created
row, provided the id was fresh for the contracts table. -/
theorem findContract_create (s : State) (uid : UserId) (d : ContractCreate)
    (now : Time) (hfc : ∀ c ∈ s.contracts, c.id ≠ s.next_id) :
    findContract (create_contract s uid d now).1 s.next_id =
      some (createdContractRow s uid d now) := by
  unfold create_contract findContract
  dsimp only
  rw [find?_append_of_none _ _ _ (by
    rw [List.find?_eq_none]
    intro x hx
    simpa using hfc x hx)]
  simp [List.find?, createdContractRow]

/-- Looking up version number 1 of the new contract right after
create_contract yields the created version row, provided the id was fresh
for the versions table. -/
theorem find_version1_create (s : State) (uid : UserId) (d : ContractCreate)
    (now : Time) (hfv : ∀ v ∈ s.versions, v.contract_id ≠ s.next_id) :
    find_current_version (create_contract s uid d now).1 s.next_id 1 =
      some (createdVersionRow s uid d) := by
  unfold create_contract find_current_version
  dsimp only
  rw [find?_append_of_none _ _ _ (by
    rw [List.find?_eq_none]
    intro x hx
    simp only [decide_eq_true_eq]
    rintro ⟨h1, -⟩
    exact hfv x hx h1)]
  simp [List.find?, createdVersionRow]

/-- C6: creating a contract with content C and then fetching the current
content returns exactly C; creating a second version with content C2 makes
the pointer designate version 2 whose content is C2, while the version-1
row is still present, unchanged, with content C — the two operations only
append version rows. -/
theorem c6_round_trip_and_immutability (s : State) (uid : UserId)
    (d : ContractCreate) (now : Time) (uid2 : UserId)
    (vd : ContractVersionCreate) (now2 : Time)
    (hfc : ∀ c ∈ s.contracts, c.id ≠ s.next_id)
    (hfv : ∀ v ∈ s.versions, v.contract_id ≠ s.next_id) :
    (get_contract_with_current_content (create_contract s uid d now).1
        (create_contract s uid d now).2).2 = some d.content ∧
    ∃ s2 v2, create_contract_version (create_contract s uid d now).1
        (create_contract s uid d now).2 uid2 vd now2 = .ok (s2, v2) ∧
      (findContract s2 (create_contract s uid d now).2).map
        (fun c => c.current_version) = some 2 ∧
      (get_contract_with_current_content s2
          (create_contract s uid d now).2).2 = some vd.content ∧
      find_current_version s2 (create_contract s uid d now).2 1 =
        find_current_version (create_contract s uid d now).1
          (create_contract s uid d now).2 1 ∧
      (find_current_version s2 (create_contract s uid d now).2 1).map
        (fun v => v.content) = some d.content := by
  have hcid2 : (create_contract s uid d now).2 = s.next_id := rfl
  have h1 := findContract_create s uid d now hfc
  have h2 := find_version1_create s uid d now hfv
  rw [hcid2]
  constructor
  · unfold get_contract_with_current_content
    rw [h1]
    dsimp only
    rw [show (createdContractRow s uid d now).current_version = 1 from rfl,
      h2]
    rfl
  · unfold create_contract_version
    rw [h1]
    dsimp only
    refine ⟨_, _, rfl, ?_, ?_, ?_, ?_⟩
    · rw [show findContract
          { (create_contract s uid d now).1 with
            contracts := replaceContract
              ((create_contract s uid d now).1.contracts) s.next_id
              { createdContractRow s uid d now with
                current_version :=
                  (createdContractRow s uid d now).current_version + 1,
                last_activity_by_id := uid2, last_activity := now2,
                updated_at := now2 },
            versions := (create_contract s uid d now).1.versions ++
              [{ contract_id := s.next_id,
                 version :=
                   (createdContractRow s uid d now).current_version + 1,
                 content := vd.content, modified_by_id := uid2,
                 change_summary := vd.change_summary,
                 rendered_html := none, pdf_path := none }] }
          s.next_id = some
          { createdContractRow s uid d now with
            current_version :=
              (createdContractRow s uid d now).current_version + 1,
            last_activity_by_id := uid2, last_activity := now2,
            updated_at := now2 }
        from find_replaceContract _ _ _ _ h1 rfl]
      rfl
    · unfold get_contract_with_current_content
      rw [show findContract
            { (create_contract s uid d now).1 with
              contracts := replaceContract
                ((create_contract s uid d now).1.contracts) s.next_id
                { createdContractRow s uid d now with
                  current_version :=
                    (createdContractRow s uid d now).current_version + 1,
                  last_activity_by_id := uid2, last_activity := now2,
                  updated_at := now2 },
              versions := (create_contract s uid d now).1.versions ++
                [{ contract_id := s.next_id,
                   version :=
                     (createdContractRow s uid d now).current_version + 1,
                   content := vd.content, modified_by_id := uid2,
                   change_summary := vd.change_summary,
                   rendered_html := none, pdf_path := none }] }
            s.next_id = some
            { createdContractRow s uid d now with
              current_version :=
                (createdContractRow s uid d now).current_version + 1,
              last_activity_by_id := uid2, last_activity := now2,
              updated_at := now2 }
          from find_replaceContract _ _ _ _ h1 rfl]
      dsimp only
      unfold find_current_version
      dsimp only
      have hA : List.find? (fun vr => decide (vr.contract_id = s.next_id ∧
          vr.version =
            (createdContractRow s uid d now).current_version + 1))
          ((create_contract s uid d now).1.versions) = none := by
        rw [List.find?_eq_none]
        intro x hx
        have hx2 : x ∈ s.versions ++ [createdVersionRow s uid d] := hx
        simp only [List.mem_append, List.mem_singleton] at hx2
        simp only [decide_eq_true_eq]
        rintro ⟨ha, hb⟩
        rcases hx2 with hx2 | hx2
        · exact hfv x hx2 ha
        · subst hx2
          simp only [createdVersionRow, createdContractRow] at hb
          omega
      rw [find?_append_of_none _ _ _ hA]
      simp [List.find?]
    · unfold find_current_version
      dsimp only
      rw [find?_append_of_some _ _ _ _ h2]
      exact h2.symm
    · unfold find_current_version
      dsimp only
      rw [find?_append_of_some _ _ _ _ h2]
      rfl

/-- Empty database. -/
def stEmpty : State :=
  { contracts := [], versions := [], parties := [], org_users := [],
    invitations := [], organizations := [], next_id := 0 }

/-- Sample creation payload with one party and initial content. -/
def dSample : ContractCreate :=
  { title := "Master services", description := none,
    template_type := .custom, effective_date := some 1,
    expiration_date := some 9, organization_id := none,
    parties := [
      { party_type := .individual, user_id := some 4,
        organization_id := none, external_name := none,
        external_email := none, signature_required := true }],
    content := [("sections", "body v1")] }

/-- Witness for c6_round_trip_and_immutability on the empty database. -/
theorem c6_round_trip_and_immutability_witness :
    (get_contract_with_current_content
        (create_contract stEmpty 4 dSample 11).1
        (create_contract stEmpty 4 dSample 11).2).2 = some dSample.content ∧
    ∃ s2 v2, create_contract_version (create_contract stEmpty 4 dSample 11).1
        (create_contract stEmpty 4 dSample 11).2 5 vdSecond 12 =
          .ok (s2, v2) ∧
      (findContract s2 (create_contract stEmpty 4 dSample 11).2).map
        (fun c => c.current_version) = some 2 ∧
      (get_contract_with_current_content s2
          (create_contract stEmpty 4 dSample 11).2).2 =
        some vdSecond.content ∧
      find_current_version s2 (create_contract stEmpty 4 dSample 11).2 1 =
        find_current_version (create_contract stEmpty 4 dSample 11).1
          (create_contract stEmpty 4 dSample 11).2 1 ∧
      (find_current_version s2
          (create_contract stEmpty 4 dSample 11).2 1).map
        (fun v => v.content) = some dSample.content :=
  c6_round_trip_and_immutability stEmpty 4 dSample 11 5 vdSecond 12
    (by simp [stEmpty]) (by simp [stEmpty])

/-- The string value of an OrganizationRole (str Enum in the source). -/
def roleValue : OrganizationRole → String
  | .admin => "admin"
  | .editor => "editor"
  | .viewer => "viewer"

/-- app/api/contract.py get_contract_details, access-control portion (the
contract row has already been fetched): owner, then party, then
organization membership with role in [admin, editor, viewer]; every
non-granted case raises 403.  The endpoint is preceded by the
has_permission stub gate. -/
def get_contract_details_access (s : State) (current_user : UserId)
    (contract : Contract) : Except ApiErr Unit :=
  if has_permission current_user MANAGES_CONTRACT then
    if contract.owner_id = current_user then .ok ()
    else if (s.parties.filter (fun p =>
        decide (p.contract_id = contract.id))).any (fun p =>
        decide (p.user_id = some current_user)) then .ok ()
    else match contract.organization_id with
      | some oid =>
        match s.org_users.find? (fun ou =>
            decide (ou.user_id = current_user) &&
              decide (ou.organization_id = oid)) with
        | some ou =>
          if (["admin", "editor", "viewer"].contains (roleValue ou.role))
          then .ok ()
          else .error ⟨403, "Not authorized to access this contract"⟩
        | none => .error ⟨403, "Not authorized to access this contract"⟩
      | none => .error ⟨403, "Not authorized to access this contract"⟩
  else .error ⟨403, "Not authorized to view contract details"⟩

/-- app/api/contract.py get_contract_html, access-control portion: the
same block repeated verbatim in the source. -/
def get_contract_html_access (s : State) (current_user : UserId)
    (contract : Contract) : Except ApiErr Unit :=
  if has_permission current_user MANAGES_CONTRACT then
    if contract.owner_id = current_user then .ok ()
    else if (s.parties.filter (fun p =>
        decide (p.contract_id = contract.id))).any (fun p =>
        decide (p.user_id = some current_user)) then .ok ()
    else match contract.organization_id with
      | some oid =>
        match s.org_users.find? (fun ou =>
            decide (ou.user_id = current_user) &&
              decide (ou.organization_id = oid)) with
        | some ou =>
          if (["admin", "editor", "viewer"].contains (roleValue ou.role))
          then .ok ()
          else .error ⟨403, "Not authorized to access this contract"⟩
        | none => .error ⟨403, "Not authorized to access this contract"⟩
      | none => .error ⟨403, "Not authorized to access this contract"⟩
  else .error ⟨403, "Not authorized to view contracts"⟩

/-- app/api/contract.py get_contract_pdf, access-control portion: again
the same block repeated verbatim in the source. -/
def get_contract_pdf_access (s : State) (current_user : UserId)
    (contract : Contract) : Except ApiErr Unit :=
  if has_permission current_user MANAGES_CONTRACT then
    if contract.owner_id = current_user then .ok ()
    else if (s.parties.filter (fun p =>
        decide (p.contract_id = contract.id))).any (fun p =>
        decide (p.user_id = some current_user)) then .ok ()
    else match contract.organization_id with
      | some oid =>
        match s.org_users.find? (fun ou =>
            decide (ou.user_id = current_user) &&
              decide (ou.organization_id = oid)) with
        | some ou =>
          if (["admin", "editor", "viewer"].contains (roleValue ou.role))
          then .ok ()
          else .error ⟨403, "Not authorized to access this contract"⟩
        | none => .error ⟨403, "Not authorized to access this contract"⟩
      | none => .error ⟨403, "Not authorized to access this contract"⟩
  else .error ⟨403, "Not authorized to view contracts"⟩

/-- Every role value appears in the access list of the source. -/
theorem role_in_access_list (r : OrganizationRole) :
    (["admin", "editor", "viewer"].contains (roleValue r)) = true := by
  cases r <;> rfl

/-- C4: for every actor and (existing) contract, access is granted exactly
when the actor owns the contract, or matches the user reference of a
ContractParty row of the contract, or the contract has an organization in
which the actor holds a membership (whose role is necessarily admin,
editor or viewer); every other case — including a contract with no
organization where neither owner nor party matches — is a 403 denial; and
the HTML and PDF endpoints evaluate access identically to the detail
endpoint. -/
theorem c4_access_granted_iff (s : State) (u : UserId) (c : Contract) :
    (get_contract_details_access s u c = .ok () ↔
      (c.owner_id = u ∨
       (∃ p ∈ s.parties, p.contract_id = c.id ∧ p.user_id = some u) ∨
       (∃ oid, c.organization_id = some oid ∧
         ∃ ou ∈ s.org_users, ou.user_id = u ∧
           ou.organization_id = oid))) ∧
    (get_contract_details_access s u c = .ok () ∨
      get_contract_details_access s u c =
        .error ⟨403, "Not authorized to access this contract"⟩) ∧
    get_contract_html_access s u c = get_contract_details_access s u c ∧
    get_contract_pdf_access s u c = get_contract_details_access s u c := by
  refine ⟨?_, ?_, rfl, rfl⟩
  all_goals
    unfold get_contract_details_access
    simp only [has_permission, if_true]
  · by_cases h1 : c.owner_id = u
    · simp [h1]
    · rw [if_neg h1]
      by_cases h2 : ((s.parties.filter (fun p =>
          decide (p.contract_id = c.id))).any (fun p =>
          decide (p.user_id = some u))) = true
      · rw [if_pos h2]
        simp only [List.any_eq_true, List.mem_filter,
          decide_eq_true_eq] at h2
        obtain ⟨p, ⟨hp, hpc⟩, hpu⟩ := h2
        exact iff_of_true rfl (Or.inr (Or.inl ⟨p, hp, hpc, hpu⟩))
      · rw [if_neg h2]
        have h2' : ¬∃ p ∈ s.parties, p.contract_id = c.id ∧
            p.user_id = some u := by
          intro hx
          obtain ⟨p, hp, hpc, hpu⟩ := hx
          exact h2 (by
            simp only [List.any_eq_true, List.mem_filter,
              decide_eq_true_eq]
            exact ⟨p, ⟨hp, hpc⟩, hpu⟩)
        cases ho : c.organization_id with
        | none =>
          dsimp only
          refine iff_of_false (by simp) ?_
          rintro (hx | hx | ⟨oid, hoid, -⟩)
          · exact h1 hx
          · exact h2' hx
          · exact absurd hoid (by simp)
        | some oid =>
          dsimp only
          cases hf : s.org_users.find? (fun ou =>
              decide (ou.user_id = u) &&
                decide (ou.organization_id = oid)) with
          | none =>
            dsimp only
            refine iff_of_false (by simp) ?_
            rintro (hx | hx | ⟨oid2, hoid2, ou, hou, hu2, ho2⟩)
            · exact h1 hx
            · exact h2' hx
            · have hoe : oid = oid2 := by
                injection hoid2
              subst hoe
              have hnp := List.find?_eq_none.mp hf ou hou
              simp only [Bool.and_eq_true, decide_eq_true_eq] at hnp
              exact hnp ⟨hu2, ho2⟩
          | some ou =>
            dsimp only
            rw [role_in_access_list ou.role, if_pos rfl]
            have hmem := List.mem_of_find?_eq_some hf
            have hpred := List.find?_some hf
            simp only [Bool.and_eq_true, decide_eq_true_eq] at hpred
            exact iff_of_true rfl (Or.inr (Or.inr
              ⟨oid, rfl, ou, hmem, hpred.1, hpred.2⟩))
  · by_cases h1 : c.owner_id = u
    · simp [h1]
    · rw [if_neg h1]
      by_cases h2 : ((s.parties.filter (fun p =>
          decide (p.contract_id = c.id))).any (fun p =>
          decide (p.user_id = some u))) = true
      · rw [if_pos h2]
        exact Or.inl rfl
      · rw [if_neg h2]
        cases ho : c.organization_id with
        | none => exact Or.inr rfl
        | some oid =>
          dsimp only
          cases hf : s.org_users.find? (fun ou =>
              decide (ou.user_id = u) &&
                decide (ou.organization_id = oid)) with
          | none => exact Or.inr rfl
          | some ou =>
            dsimp only
            rw [role_in_access_list ou.role, if_pos rfl]
            exact Or.inl rfl

/-- app/api/contract.py create_contract_endpoint: the has_permission gate,
then (when an organization is requested) the membership check, then the
service call. -/
def create_contract_endpoint (s : State) (current_user : UserId)
    (contract_data : ContractCreate) (now : Time) :
    Except ApiErr (State × Cid) :=
  if has_permission current_user MANAGES_CONTRACT then
    match contract_data.organization_id with
    | some oid =>
      if s.org_users.any (fun ou => decide (ou.user_id = current_user) &&
          decide (ou.organization_id = oid)) then
        .ok (create_contract s current_user contract_data now)
      else .error ⟨403, "Not a member of the specified organization"⟩
    | none => .ok (create_contract s current_user contract_data now)
  else .error ⟨403, "Not authorized to create contracts"⟩

/-- C9: the User.has_permission stub returns True for every user and every
capability, so the capability gate of the contract endpoints never denies:
user 5 holds no membership at all (the state has no OrganizationUser rows,
so no role bitset could contain MANAGES_CONTRACT), yet the create endpoint
grants the capability and creates the contract. -/
theorem c9_capability_stub_bypasses_gate :
    (∀ (u : UserId) (p : Nat), has_permission u p = true) ∧
    stEmpty.org_users = [] ∧
    (∃ st, create_contract_endpoint stEmpty 5 dSample 3 = .ok st) := by
  exact ⟨fun u p => rfl, rfl, ⟨_, rfl⟩⟩

/-- app/api/users.py accept_invitation.  Lookup by token and expiry, email
match, organization existence, then the duplicate-membership check — which
the source writes as `OrganizationUser.organization_id == invitation.id`,
comparing against the invitation UUID rather than its organization_id —
then insert + delete + commit, where committing a duplicate
(organization_id, user_id) primary key raises, is caught, rolled back and
returned as a 500. -/
def accept_invitation (s : State) (user_id : UserId) (user_email : String)
    (token : String) (now : Time) : Except ApiErr Unit × State :=
  match s.invitations.find? (fun i => decide (i.token = token) &&
      decide (now < i.expires_at)) with
  | none => (.error ⟨404, "Invalid or expired invitation"⟩, s)
  | some invitation =>
    if user_email ≠ invitation.email then
      (.error ⟨403, "This invitation was sent to a different email"⟩, s)
    else if !(s.organizations.contains invitation.organization_id) then
      (.error ⟨404, "Organization not found"⟩, s)
    else match s.org_users.find? (fun ou => decide (ou.user_id = user_id) &&
        decide (ou.organization_id = invitation.id)) with
    | some _ =>
      (.error ⟨400, "already a member of this organization"⟩,
        { s with invitations := s.invitations.filter (fun i =>
            decide (i.id ≠ invitation.id)) })
    | none =>
      if s.org_users.any (fun ou =>
          decide (ou.organization_id = invitation.organization_id) &&
            decide (ou.user_id = user_id)) then
        (.error ⟨500, "Error accepting invitation"⟩, s)
      else
        (.ok (),
          { s with
            org_users := s.org_users ++
              [{ organization_id := invitation.organization_id,
                 user_id := user_id, role := invitation.role }],
            invitations := s.invitations.filter (fun i =>
              decide (i.id ≠ invitation.id)) })

/-- Valid unexpired invitation for alice to join organization 10. -/
def invSample : Invitation :=
  { id := 99, organization_id := 10, email := "alice at example",
    role := .editor, token := "tok123", expires_at := 100 }

/-- State where user 1 (alice) already belongs to organization 10 and the
invitation is pending. -/
def stMemberAlready : State :=
  { contracts := [], versions := [], parties := [],
    org_users := [
      { organization_id := 10, user_id := 1, role := .viewer }],
    invitations := [invSample], organizations := [10], next_id := 50 }

/-- C7: user 1 already holds the membership the invitation would grant
(first conjunct), the invitation matches by token, expiry and email, yet
accept_invitation returns the 500 integrity-failure error instead of the
duplicate-membership Conflict — the duplicate check compares memberships
against invitation.id (99) instead of invitation.organization_id (10), so
it never fires — and the state is unchanged (no second row, invitation not
consumed). -/
theorem c7_duplicate_check_uses_wrong_id :
    (stMemberAlready.org_users.any (fun ou =>
      decide (ou.organization_id = invSample.organization_id) &&
        decide (ou.user_id = 1))) = true ∧
    accept_invitation stMemberAlready 1 "alice at example" "tok123" 50 =
      (.error ⟨500, "Error accepting invitation"⟩, stMemberAlready) := by
  exact ⟨rfl, rfl⟩

/-- app/services/pdf_service.py generate_pdf signature: the keyword
parameters the function accepts. -/
def pdf_service_generate_pdf_params : List String :=
  ["html_content", "output_path", "css_content"]

/-- The keyword arguments app/services/contract_service.py
generate_contract_pdf passes to generate_pdf. -/
def generate_contract_pdf_call_kwargs : List String :=
  ["html_content", "output_path", "css_content", "metadata"]

/-- The output path generate_contract_pdf computes:
storage/contracts/{id}/contract_{id}_{current_version}.pdf — a function of
the contract only; a requested watermark does not enter the path. -/
def pdfOutputPath (contract : Contract) : String :=
  "storage/contracts/" ++ toString contract.id ++ "/contract_" ++
    toString contract.id ++ "_" ++ toString contract.current_version ++
    ".pdf"

/-- app/services/contract_service.py generate_contract_pdf: renders the
HTML, computes the output path, and calls generate_pdf with keyword
arguments including metadata; a Python call passing a keyword the callee
does not accept raises TypeError before the callee body runs, and the
surrounding except re-raises it as the render ValueError. -/
def generate_contract_pdf (contract : Contract) : Except String String :=
  if generate_contract_pdf_call_kwargs.all (fun k =>
      pdf_service_generate_pdf_params.contains k) then
    .ok (pdfOutputPath contract)
  else
    .error "Failed to generate contract PDF: unexpected keyword argument"

/-- app/api/contract.py get_contract_pdf, after the access check: reuse
the stored pdf_path of the current version when the file exists and no
watermark is requested; otherwise generate, which surfaces failures as a
500.  `files` models the filesystem paths that exist (os.path.exists). -/
def get_contract_pdf_serve (s : State) (current_user : UserId)
    (contract : Contract) (watermark : Option String)
    (files : List String) : Except ApiErr String :=
  match get_contract_pdf_access s current_user contract with
  | .error e => .error e
  | .ok _ =>
    let existing_pdf : Option String :=
      match s.versions.find? (fun v => decide (v.contract_id = contract.id)
          && decide (v.version = contract.current_version)) with
      | some v =>
        match v.pdf_path with
        | some pth => if files.contains pth then some pth else none
        | none => none
      | none => none
    match existing_pdf, watermark with
    | some pth, none => .ok pth
    | _, _ =>
      match generate_contract_pdf contract with
      | .ok pth => .ok pth
      | .error _ => .error ⟨500, "Error generating contract PDF"⟩

/-- State where contract 1 (cActive, owner 7) has a version-1 row whose
pdf_path records an earlier successful non-watermarked generation. -/
def stPdfCache : State :=
  { contracts := [cActive],
    versions := [
      { contract_id := 1, version := 1, content := [],
        modified_by_id := 7, change_summary := none,
        rendered_html := none,
        pdf_path := some "storage/contracts/1/contract_1_1.pdf" }],
    parties := [], org_users := [], invitations := [],
    organizations := [], next_id := 2 }

/-- C8: PDF generation always fails on this code — generate_contract_pdf
passes a metadata keyword that pdf_service.generate_pdf does not accept,
so no fresh PDF is ever produced: a cached non-watermarked export is
served (second conjunct), but any watermarked export, which the claim says
always generates a fresh PDF, errors with the 500 render failure (third
conjunct). -/
theorem c8_pdf_generation_always_fails :
    (∀ c, generate_contract_pdf c =
      .error "Failed to generate contract PDF: unexpected keyword argument")
    ∧
    get_contract_pdf_serve stPdfCache 7 cActive none
      ["storage/contracts/1/contract_1_1.pdf"] =
        .ok "storage/contracts/1/contract_1_1.pdf" ∧
    get_contract_pdf_serve stPdfCache 7 cActive (some "DRAFT")
      ["storage/contracts/1/contract_1_1.pdf"] =
        .error ⟨500, "Error generating contract PDF"⟩ := by
  exact ⟨fun c => rfl, rfl, rfl⟩

/-- Membership lookup for one (organization, user) pair, as queried by
require_permission and the member endpoints. -/
def findMember (s : State) (org_id : OrgId) (user_id : UserId) :
    Option OrganizationUser :=
  s.org_users.find? (fun ou => decide (ou.user_id = user_id) &&
    decide (ou.organization_id = org_id))

/-- The admin-count query of remove_member: number of OrganizationUser
rows of the organization whose role is admin. -/
def adminCount (s : State) (org_id : OrgId) : Nat :=
  (s.org_users.filter (fun ou => decide (ou.organization_id = org_id) &&
    decide (ou.role = OrganizationRole.admin))).length

/-- app/api/organizations.py remove_member with its require_permission
wrapper (REMOVE_MEMBERS).  Checks: caller membership (404), capability
(403), target membership (404), self-removal (400), last-admin (400); then
deletes the row and commits.  For a non-admin target the source then hits
a NameError (the organization/user variables are only bound in the admin
branch), so the request returns 500 — after the deletion has already been
committed. -/
def remove_member (s : State) (org_id : OrgId) (user_id : UserId)
    (current_user : UserId) : Except ApiErr Unit × State :=
  match findMember s org_id current_user with
  | none => (.error ⟨404, "Not a member of this organization"⟩, s)
  | some caller =>
    if permHas (ROLE_PERMISSIONS caller.role) REMOVE_MEMBERS = false then
      (.error ⟨403, "Insufficient permissions"⟩, s)
    else match findMember s org_id user_id with
    | none => (.error ⟨404, "Member not found in organization"⟩, s)
    | some org_user =>
      if user_id = current_user then
        (.error ⟨400, "Cannot remove yourself from the organization"⟩, s)
      else if org_user.role = OrganizationRole.admin ∧
          adminCount s org_id ≤ 1 then
        (.error ⟨400, "Cannot remove the last admin of the organization"⟩,
          s)
      else
        let s2 : State := { s with
          org_users := s.org_users.filter (fun ou =>
            !(decide (ou.organization_id = org_id) &&
              decide (ou.user_id = user_id))) }
        if org_user.role = OrganizationRole.admin then (.ok (), s2)
        else (.error ⟨500, "Error removing member"⟩, s2)

/-- app/api/organizations.py update_member_role with its
require_permission wrapper (EDIT_ORGANIZATION).  Checks: caller membership
(404), capability (403), target membership (404), self-modification
(400); then sets the role and commits.  No admin-count check exists in
this endpoint. -/
def update_member_role (s : State) (org_id : OrgId) (user_id : UserId)
    (current_user : UserId) (new_role : OrganizationRole) :
    Except ApiErr Unit × State :=
  match findMember s org_id current_user with
  | none => (.error ⟨404, "Not a member of this organization"⟩, s)
  | some caller =>
    if permHas (ROLE_PERMISSIONS caller.role) EDIT_ORGANIZATION = false
    then (.error ⟨403, "Insufficient permissions"⟩, s)
    else match findMember s org_id user_id with
    | none => (.error ⟨404, "Member not found"⟩, s)
    | some _ =>
      if user_id = current_user then
        (.error ⟨400, "Cannot modify your own role"⟩, s)
      else
        (.ok (), { s with
          org_users := s.org_users.map (fun ou =>
            if decide (ou.organization_id = org_id) &&
                decide (ou.user_id = user_id) then
              { ou with role := new_role }
            else ou) })

/-- Modelled from the spec: section 7 places self-removal,
self-role-modification and last-admin removal in the Conflict class of the
error taxonomy (the endpoints return them as 400s). -/
def conflictClass (e : Except ApiErr Unit) : Prop :=
  e = .error ⟨400, "Cannot remove yourself from the organization"⟩ ∨
  e = .error ⟨400, "Cannot remove the last admin of the organization"⟩ ∨
  e = .error ⟨400, "Cannot modify your own role"⟩

/-- Only the admin bitset contains REMOVE_MEMBERS. -/
theorem remove_members_needs_admin (r : OrganizationRole)
    (h : permHas (ROLE_PERMISSIONS r) REMOVE_MEMBERS = true) :
    r = .admin := by
  cases r
  · rfl
  · exact absurd h (by decide)
  · exact absurd h (by decide)

/-- Only the admin bitset contains EDIT_ORGANIZATION. -/
theorem edit_org_needs_admin (r : OrganizationRole)
    (h : permHas (ROLE_PERMISSIONS r) EDIT_ORGANIZATION = true) :
    r = .admin := by
  cases r
  · rfl
  · exact absurd h (by decide)
  · exact absurd h (by decide)

/-- With exactly one admin row in the organization, any two admin rows of
that organization coincide. -/
theorem admin_unique (s : State) (org_id : OrgId)
    (h1 : adminCount s org_id = 1) {a b : OrganizationUser}
    (ha : a ∈ s.org_users) (ha2 : a.organization_id = org_id)
    (ha3 : a.role = .admin) (hb : b ∈ s.org_users)
    (hb2 : b.organization_id = org_id) (hb3 : b.role = .admin) :
    a = b := by
  unfold adminCount at h1
  obtain ⟨x, hx⟩ := List.length_eq_one.mp h1
  have hma : a ∈ s.org_users.filter (fun ou =>
      decide (ou.organization_id = org_id) &&
        decide (ou.role = OrganizationRole.admin)) :=
    List.mem_filter.mpr ⟨ha, by simp [ha2, ha3]⟩
  have hmb : b ∈ s.org_users.filter (fun ou =>
      decide (ou.organization_id = org_id) &&
        decide (ou.role = OrganizationRole.admin)) :=
    List.mem_filter.mpr ⟨hb, by simp [hb2, hb3]⟩
  rw [hx] at hma hmb
  simp only [List.mem_singleton] at hma hmb
  rw [hma, hmb]

/-- Rows with equal (organization, user) keys coincide when the key list
has no duplicates (the composite primary key). -/
theorem member_key_unique (l : List OrganizationUser)
    (h0 : (l.map (fun ou => (ou.organization_id, ou.user_id))).Nodup)
    {a b : OrganizationUser} (ha : a ∈ l) (hb : b ∈ l)
    (h2 : a.organization_id = b.organization_id)
    (h3 : a.user_id = b.user_id) : a = b := by
  have := List.inj_on_of_nodup_map h0
  exact this ha hb (by rw [h2, h3])

/-- C3: in an organization with exactly one admin (and the composite
primary key on memberships), no remove_member or update_member_role call
can leave the organization without an admin; and whenever a
capability-authorized caller targets the sole admin (removal, or role
change away from admin), the call fails with a Conflict-class error and
changes nothing — with one admin the only authorized caller is that admin,
so the self-modification Conflict fires. -/
theorem c3_org_retains_an_admin (s : State) (org_id : OrgId)
    (h0 : (s.org_users.map (fun ou =>
      (ou.organization_id, ou.user_id))).Nodup)
    (h1 : adminCount s org_id = 1) :
    (∀ target caller,
      1 ≤ adminCount (remove_member s org_id target caller).2 org_id) ∧
    (∀ target caller r,
      1 ≤ adminCount
        (update_member_role s org_id target caller r).2 org_id) ∧
    (∀ target caller,
      (∃ cu, findMember s org_id caller = some cu ∧
        permHas (ROLE_PERMISSIONS cu.role) REMOVE_MEMBERS = true) →
      (∃ tu, findMember s org_id target = some tu ∧ tu.role = .admin) →
      conflictClass (remove_member s org_id target caller).1 ∧
        (remove_member s org_id target caller).2 = s) ∧
    (∀ target caller r,
      (∃ cu, findMember s org_id caller = some cu ∧
        permHas (ROLE_PERMISSIONS cu.role) EDIT_ORGANIZATION = true) →
      (∃ tu, findMember s org_id target = some tu ∧ tu.role = .admin) →
      r ≠ OrganizationRole.admin →
      conflictClass (update_member_role s org_id target caller r).1 ∧
        (update_member_role s org_id target caller r).2 = s) := by
  refine ⟨?_, ?_, ?_, ?_⟩
  · intro target caller
    unfold remove_member
    cases hc : findMember s org_id caller with
    | none => dsimp only; omega
    | some cu =>
      dsimp only
      by_cases hp : permHas (ROLE_PERMISSIONS cu.role) REMOVE_MEMBERS =
          false
      · rw [if_pos hp]; dsimp only; omega
      · rw [if_neg hp]
        cases ht : findMember s org_id target with
        | none => dsimp only; omega
        | some tu =>
          dsimp only
          by_cases hself : target = caller
          · rw [if_pos hself]; dsimp only; omega
          · rw [if_neg hself]
            by_cases hla : tu.role = OrganizationRole.admin ∧
                adminCount s org_id ≤ 1
            · rw [if_pos hla]; dsimp only; omega
            · rw [if_neg hla]
              have htu_ne : tu.role ≠ OrganizationRole.admin := by
                intro hr
                exact hla ⟨hr, by omega⟩
              rw [if_neg htu_ne]
              dsimp only
              have htmem := List.mem_of_find?_eq_some ht
              have htpred := List.find?_some ht
              simp only [Bool.and_eq_true, decide_eq_true_eq] at htpred
              have h1' := h1
              unfold adminCount at h1'
              obtain ⟨x, hx⟩ := List.length_eq_one.mp h1'
              have hxmem : x ∈ s.org_users.filter (fun ou =>
                  decide (ou.organization_id = org_id) &&
                    decide (ou.role = OrganizationRole.admin)) := by
                rw [hx]
                exact List.mem_singleton_self x
              have hx2 := List.mem_filter.mp hxmem
              have hx3 := hx2.2
              simp only [Bool.and_eq_true, decide_eq_true_eq] at hx3
              have hxut : x.user_id ≠ target := by
                intro hxu
                have hxe : x = tu := member_key_unique s.org_users h0
                  hx2.1 htmem (by rw [hx3.1, htpred.2])
                  (by rw [hxu, htpred.1])
                rw [hxe] at hx3
                exact htu_ne hx3.2
              unfold adminCount
              dsimp only
              have hsurv : x ∈ s.org_users.filter (fun ou =>
                  !(decide (ou.organization_id = org_id) &&
                    decide (ou.user_id = target))) :=
                List.mem_filter.mpr ⟨hx2.1, by simp [hxut]⟩
              have hfin : x ∈ (s.org_users.filter (fun ou =>
                  !(decide (ou.organization_id = org_id) &&
                    decide (ou.user_id = target)))).filter (fun ou =>
                  decide (ou.organization_id = org_id) &&
                    decide (ou.role = OrganizationRole.admin)) :=
                List.mem_filter.mpr ⟨hsurv, by simp [hx3.1, hx3.2]⟩
              exact List.length_pos_of_mem hfin
  · intro target caller r
    unfold update_member_role
    cases hc : findMember s org_id caller with
    | none => dsimp only; omega
    | some cu =>
      dsimp only
      by_cases hp : permHas (ROLE_PERMISSIONS cu.role) EDIT_ORGANIZATION =
          false
      · rw [if_pos hp]; dsimp only; omega
      · rw [if_neg hp]
        cases ht : findMember s org_id target with
        | none => dsimp only; omega
        | some tu =>
          dsimp only
          by_cases hself : target = caller
          · rw [if_pos hself]; dsimp only; omega
          · rw [if_neg hself]
            dsimp only
            have hp' : permHas (ROLE_PERMISSIONS cu.role)
                EDIT_ORGANIZATION = true := by
              revert hp
              cases permHas (ROLE_PERMISSIONS cu.role) EDIT_ORGANIZATION
              · intro hp; exact absurd rfl hp
              · intro hp; rfl
            have hcadmin := edit_org_needs_admin cu.role hp'
            have hcmem := List.mem_of_find?_eq_some hc
            have hcpred := List.find?_some hc
            simp only [Bool.and_eq_true, decide_eq_true_eq] at hcpred
            have hne : cu.user_id ≠ target := by
              rw [hcpred.1]
              intro hx
              exact hself hx.symm
            have himg : cu ∈ s.org_users.map (fun ou =>
                if decide (ou.organization_id = org_id) &&
                    decide (ou.user_id = target) then
                  { ou with role := r }
                else ou) := by
              refine List.mem_map.mpr ⟨cu, hcmem, ?_⟩
              simp [hne]
            unfold adminCount
            dsimp only
            have hfin : cu ∈ (s.org_users.map (fun ou =>
                if decide (ou.organization_id = org_id) &&
                    decide (ou.user_id = target) then
                  { ou with role := r }
                else ou)).filter (fun ou =>
                decide (ou.organization_id = org_id) &&
                  decide (ou.role = OrganizationRole.admin)) :=
              List.mem_filter.mpr ⟨himg, by simp [hcpred.2, hcadmin]⟩
            exact List.length_pos_of_mem hfin
  · rintro target caller ⟨cu, hc, hperm⟩ ⟨tu, ht, htrole⟩
    have hcadmin := remove_members_needs_admin cu.role hperm
    have hcmem := List.mem_of_find?_eq_some hc
    have hcpred := List.find?_some hc
    simp only [Bool.and_eq_true, decide_eq_true_eq] at hcpred
    have htmem := List.mem_of_find?_eq_some ht
    have htpred := List.find?_some ht
    simp only [Bool.and_eq_true, decide_eq_true_eq] at htpred
    have hct : cu = tu := admin_unique s org_id h1 hcmem hcpred.2 hcadmin
      htmem htpred.2 htrole
    have hteq : target = caller := by
      rw [← htpred.1, ← hcpred.1, hct]
    subst hteq
    unfold remove_member
    rw [hc]
    dsimp only
    rw [if_neg (by simp [hperm])]
    rw [if_pos rfl]
    exact ⟨Or.inl rfl, rfl⟩
  · rintro target caller r ⟨cu, hc, hperm⟩ ⟨tu, ht, htrole⟩ hr
    have hcadmin := edit_org_needs_admin cu.role hperm
    have hcmem := List.mem_of_find?_eq_some hc
    have hcpred := List.find?_some hc
    simp only [Bool.and_eq_true, decide_eq_true_eq] at hcpred
    have htmem := List.mem_of_find?_eq_some ht
    have htpred := List.find?_some ht
    simp only [Bool.and_eq_true, decide_eq_true_eq] at htpred
    have hct : cu = tu := admin_unique s org_id h1 hcmem hcpred.2 hcadmin
      htmem htpred.2 htrole
    have hteq : target = caller := by
      rw [← htpred.1, ← hcpred.1, hct]
    subst hteq
    unfold update_member_role
    rw [hc]
    dsimp only
    rw [if_neg (by simp [hperm])]
    rw [if_pos rfl]
    exact ⟨Or.inr (Or.inr rfl), rfl⟩

/-- Organization 20 with exactly one admin (user 2) and one viewer. -/
def stOneAdmin : State :=
  { contracts := [], versions := [], parties := [],
    org_users := [
      { organization_id := 20, user_id := 2, role := .admin },
      { organization_id := 20, user_id := 3, role := .viewer }],
    invitations := [], organizations := [20], next_id := 60 }

/-- Witness for c3_org_retains_an_admin: the sole admin of organization 20
targeted by the only authorized caller yields a Conflict-class failure and
no change. -/
theorem c3_org_retains_an_admin_witness :
    conflictClass (remove_member stOneAdmin 20 2 2).1 ∧
      (remove_member stOneAdmin 20 2 2).2 = stOneAdmin :=
  (c3_org_retains_an_admin stOneAdmin 20 (by decide) (by decide)).2.2.1 2 2
    ⟨{ organization_id := 20, user_id := 2, role := .admin }, rfl, rfl⟩
    ⟨{ organization_id := 20, user_id := 2, role := .admin }, rfl, rfl⟩

/-- The base conditions of get_user_contracts: optional status filter and
optional organization filter, both applied as where-clauses. -/
def passesFilters (status : Option ContractStatus)
    (organization_id : Option OrgId) (c : Contract) : Bool :=
  (match status with
   | some st => decide (c.status = st)
   | none => true) &&
  (match organization_id with
   | some o => decide (c.organization_id = some o)
   | none => true)

/-- get_user_contracts, step 1: the organizations where the user holds a
membership whose role bitset contains VIEW_MEMBERS. -/
def org_ids_with_permission (s : State) (user_id : UserId) : List OrgId :=
  ((s.org_users.filter (fun ou => decide (ou.user_id = user_id))).filter
    (fun ou => permHas (ROLE_PERMISSIONS ou.role) VIEW_MEMBERS)).map
    (fun ou => ou.organization_id)

/-- Query 1: ids of contracts owned by the user, base conditions
applied. -/
def ownedIds (s : State) (user_id : UserId) (status : Option ContractStatus)
    (organization_id : Option OrgId) : List Cid :=
  (s.contracts.filter (fun c => decide (c.owner_id = user_id) &&
    passesFilters status organization_id c)).map (fun c => c.id)

/-- Query 2: ids of contracts joined to a ContractParty row of the user,
base conditions applied. -/
def partyIds (s : State) (user_id : UserId) (status : Option ContractStatus)
    (organization_id : Option OrgId) : List Cid :=
  (s.contracts.filter (fun c => (s.parties.any (fun p =>
    decide (p.contract_id = c.id) && decide (p.user_id = some user_id))) &&
    passesFilters status organization_id c)).map (fun c => c.id)

/-- Query 3, issued only when org_ids_with_permission is non-empty: ids of
contracts whose organization is among those, base conditions applied. -/
def orgQueryIds (s : State) (user_id : UserId)
    (status : Option ContractStatus) (organization_id : Option OrgId) :
    Option (List Cid) :=
  if (org_ids_with_permission s user_id).isEmpty then none
  else some ((s.contracts.filter (fun c =>
    ((org_ids_with_permission s user_id).any (fun o =>
      decide (c.organization_id = some o))) &&
    passesFilters status organization_id c)).map (fun c => c.id))

/-- The UNION of the two or three id queries (deduplicated). -/
def contractIdsUnion (s : State) (user_id : UserId)
    (status : Option ContractStatus) (organization_id : Option OrgId) :
    List Cid :=
  (ownedIds s user_id status organization_id ++
    partyIds s user_id status organization_id ++
    (orgQueryIds s user_id status organization_id).getD []).dedup

/-- Ordered insertion used to model the order_by of the final fetch. -/
def sortInsert (le : Contract → Contract → Bool) (c : Contract) :
    List Contract → List Contract
  | [] => [c]
  | x :: xs => if le x c then x :: sortInsert le c xs else c :: x :: xs

/-- Insertion sort on contract rows (the order_by clause). -/
def sortContracts (le : Contract → Contract → Bool) :
    List Contract → List Contract
  | [] => []
  | x :: xs => sortInsert le x (sortContracts le xs)

/-- app/services/contract_service.py get_user_contracts: union of the
three filtered id queries, then fetch of the rows by id, sort by the
requested key (getattr with updated_at fallback, modelled as a key
function), and offset/limit pagination. -/
def get_user_contracts (s : State) (user_id : UserId)
    (status : Option ContractStatus) (organization_id : Option OrgId)
    (skip limit : Nat) (sortKey : Contract → Nat) (sort_desc : Bool) :
    List Contract :=
  let contract_ids := contractIdsUnion s user_id status organization_id
  if contract_ids.isEmpty then []
  else
    let fetched := s.contracts.filter (fun c =>
      decide (c.id ∈ contract_ids))
    let le : Contract → Contract → Bool := fun a b =>
      if sort_desc then decide (sortKey b ≤ sortKey a)
      else decide (sortKey a ≤ sortKey b)
    ((sortContracts le fetched).drop skip).take limit

/-- Membership is invariant under sortInsert. -/
theorem mem_sortInsert (le : Contract → Contract → Bool) (a c : Contract)
    (l : List Contract) :
    a ∈ sortInsert le c l ↔ a = c ∨ a ∈ l := by
  induction l with
  | nil => simp [sortInsert]
  | cons x xs ih =>
    by_cases h : le x c
    · simp only [sortInsert, if_pos h, List.mem_cons, ih]
      tauto
    · simp only [sortInsert, if_neg h, List.mem_cons]

/-- Membership is invariant under sortContracts. -/
theorem mem_sortContracts (le : Contract → Contract → Bool) (a : Contract)
    (l : List Contract) : a ∈ sortContracts le l ↔ a ∈ l := by
  induction l with
  | nil => simp [sortContracts]
  | cons x xs ih =>
    simp only [sortContracts, mem_sortInsert, List.mem_cons, ih]

/-- sortInsert adds exactly one element. -/
theorem length_sortInsert (le : Contract → Contract → Bool) (c : Contract)
    (l : List Contract) :
    (sortInsert le c l).length = l.length + 1 := by
  induction l with
  | nil => rfl
  | cons x xs ih =>
    by_cases h : le x c
    · simp [sortInsert, if_pos h, ih]
    · simp [sortInsert, if_neg h]

/-- sortContracts preserves length. -/
theorem length_sortContracts (le : Contract → Contract → Bool)
    (l : List Contract) : (sortContracts le l).length = l.length := by
  induction l with
  | nil => rfl
  | cons x xs ih =>
    simp [sortContracts, length_sortInsert, ih]

/-- Characterization of org_ids_with_permission: exactly the organizations
of memberships of the user whose role bitset contains VIEW_MEMBERS. -/
theorem mem_org_ids_with_permission (s : State) (uid : UserId) (o : OrgId) :
    o ∈ org_ids_with_permission s uid ↔
      ∃ ou ∈ s.org_users, ou.user_id = uid ∧
        permHas (ROLE_PERMISSIONS ou.role) VIEW_MEMBERS = true ∧
        ou.organization_id = o := by
  unfold org_ids_with_permission
  simp only [List.mem_map, List.mem_filter, decide_eq_true_eq]
  constructor
  · rintro ⟨ou, ⟨⟨h1, h2⟩, h3⟩, h4⟩
    exact ⟨ou, h1, h2, h3, h4⟩
  · rintro ⟨ou, h1, h2, h3, h4⟩
    exact ⟨ou, ⟨⟨h1, h2⟩, h3⟩, h4⟩

/-- Characterization of the UNION id set: an id belongs to it exactly when
some contract row carries that id, passes the base conditions, and is
owned by the user, has the user as a party, or belongs to an organization
granting the user VIEW_MEMBERS. -/
theorem mem_contractIdsUnion (s : State) (uid : UserId)
    (st : Option ContractStatus) (org : Option OrgId) (x : Cid) :
    x ∈ contractIdsUnion s uid st org ↔
      ∃ c ∈ s.contracts, c.id = x ∧ passesFilters st org c = true ∧
        (c.owner_id = uid ∨
         (∃ p ∈ s.parties, p.contract_id = c.id ∧ p.user_id = some uid) ∨
         (∃ ou ∈ s.org_users, ou.user_id = uid ∧
           permHas (ROLE_PERMISSIONS ou.role) VIEW_MEMBERS = true ∧
           c.organization_id = some ou.organization_id)) := by
  unfold contractIdsUnion
  rw [List.mem_dedup]
  simp only [List.mem_append]
  constructor
  · rintro ((hx | hx) | hx)
    · unfold ownedIds at hx
      simp only [List.mem_map, List.mem_filter, Bool.and_eq_true,
        decide_eq_true_eq] at hx
      obtain ⟨c, ⟨hc, hown, hpass⟩, hid⟩ := hx
      exact ⟨c, hc, hid, hpass, Or.inl hown⟩
    · unfold partyIds at hx
      simp only [List.mem_map, List.mem_filter, Bool.and_eq_true,
        List.any_eq_true, decide_eq_true_eq] at hx
      obtain ⟨c, ⟨hc, ⟨p, hp, hpc, hpu⟩, hpass⟩, hid⟩ := hx
      exact ⟨c, hc, hid, hpass, Or.inr (Or.inl ⟨p, hp, hpc, hpu⟩)⟩
    · by_cases he : (org_ids_with_permission s uid).isEmpty
      · unfold orgQueryIds at hx
        rw [if_pos he] at hx
        simp at hx
      · unfold orgQueryIds at hx
        rw [if_neg he] at hx
        simp only [Option.getD_some] at hx
        simp only [List.mem_map, List.mem_filter, Bool.and_eq_true,
          List.any_eq_true, decide_eq_true_eq] at hx
        obtain ⟨c, ⟨hc, ⟨o, ho, hco⟩, hpass⟩, hid⟩ := hx
        obtain ⟨ou, hou, h1, h2, h3⟩ :=
          (mem_org_ids_with_permission s uid o).mp ho
        refine ⟨c, hc, hid, hpass, Or.inr (Or.inr ⟨ou, hou, h1, h2, ?_⟩)⟩
        rw [h3]
        exact hco
  · rintro ⟨c, hc, hid, hpass, hown | ⟨p, hp, hpc, hpu⟩ |
      ⟨ou, hou, h1, h2, h3⟩⟩
    · left; left
      unfold ownedIds
      simp only [List.mem_map, List.mem_filter, Bool.and_eq_true,
        decide_eq_true_eq]
      exact ⟨c, ⟨hc, hown, hpass⟩, hid⟩
    · left; right
      unfold partyIds
      simp only [List.mem_map, List.mem_filter, Bool.and_eq_true,
        List.any_eq_true, decide_eq_true_eq]
      exact ⟨c, ⟨hc, ⟨p, hp, hpc, hpu⟩, hpass⟩, hid⟩
    · right
      have hoin : ou.organization_id ∈ org_ids_with_permission s uid :=
        (mem_org_ids_with_permission s uid ou.organization_id).mpr
          ⟨ou, hou, h1, h2, rfl⟩
      have hne : ¬(org_ids_with_permission s uid).isEmpty = true := by
        intro hcon
        rw [List.isEmpty_iff] at hcon
        rw [hcon] at hoin
        simp at hoin
      unfold orgQueryIds
      rw [if_neg hne]
      simp only [Option.getD_some]
      simp only [List.mem_map, List.mem_filter, Bool.and_eq_true,
        List.any_eq_true, decide_eq_true_eq]
      exact ⟨c, ⟨hc, ⟨ou.organization_id, hoin, h3⟩, hpass⟩, hid⟩

/-- C5: with skip 0 and a limit covering the table (distinct contract ids,
any sort key and direction), get_user_contracts returns exactly the
contracts that pass the optional status/organization filters and are owned
by the user, have the user as a party, or belong to an organization where
the user holds a VIEW_MEMBERS-granting membership — no such contract is
omitted and no other contract is included; the filters enter each of the
three id queries before the union. -/
theorem c5_list_for_user_exact (s : State) (uid : UserId)
    (st : Option ContractStatus) (org : Option OrgId)
    (sortKey : Contract → Nat) (desc : Bool) (c : Contract)
    (hN : (s.contracts.map (fun c => c.id)).Nodup) :
    c ∈ get_user_contracts s uid st org 0 s.contracts.length sortKey desc
      ↔
      (c ∈ s.contracts ∧ passesFilters st org c = true ∧
        (c.owner_id = uid ∨
         (∃ p ∈ s.parties, p.contract_id = c.id ∧ p.user_id = some uid) ∨
         (∃ ou ∈ s.org_users, ou.user_id = uid ∧
           permHas (ROLE_PERMISSIONS ou.role) VIEW_MEMBERS = true ∧
           c.organization_id = some ou.organization_id))) := by
  unfold get_user_contracts
  dsimp only
  by_cases hemp : (contractIdsUnion s uid st org).isEmpty = true
  · rw [if_pos hemp]
    simp only [List.not_mem_nil, false_iff]
    rintro ⟨hc, hpass, hdisj⟩
    have hin : c.id ∈ contractIdsUnion s uid st org :=
      (mem_contractIdsUnion s uid st org c.id).mpr
        ⟨c, hc, rfl, hpass, hdisj⟩
    rw [List.isEmpty_iff] at hemp
    rw [hemp] at hin
    simp at hin
  · rw [if_neg hemp]
    rw [List.drop_zero]
    rw [List.take_of_length_le (by
      rw [length_sortContracts]
      exact List.length_filter_le _ _)]
    rw [mem_sortContracts]
    simp only [List.mem_filter, decide_eq_true_eq]
    constructor
    · rintro ⟨hc, hid⟩
      obtain ⟨c2, hc2, hid2, hpass2, hdisj2⟩ :=
        (mem_contractIdsUnion s uid st org c.id).mp hid
      have hceq : c2 = c :=
        List.inj_on_of_nodup_map hN hc2 hc hid2
      rw [hceq] at hpass2 hdisj2
      exact ⟨hc, hpass2, hdisj2⟩
    · rintro ⟨hc, hpass, hdisj⟩
      exact ⟨hc, (mem_contractIdsUnion s uid st org c.id).mpr
        ⟨c, hc, rfl, hpass, hdisj⟩⟩

/-- Witness for c5_list_for_user_exact on the one-contract database. -/
theorem c5_list_for_user_exact_witness :
    cDraft ∈ get_user_contracts stDraft 7 none none 0
        stDraft.contracts.length (fun c => c.updated_at) true ↔
      (cDraft ∈ stDraft.contracts ∧
        passesFilters none none cDraft = true ∧
        (cDraft.owner_id = 7 ∨
         (∃ p ∈ stDraft.parties, p.contract_id = cDraft.id ∧
           p.user_id = some 7) ∨
         (∃ ou ∈ stDraft.org_users, ou.user_id = 7 ∧
           permHas (ROLE_PERMISSIONS ou.role) VIEW_MEMBERS = true ∧
           cDraft.organization_id = some ou.organization_id))) :=
  c5_list_for_user_exact stDraft 7 none none (fun c => c.updated_at) true
    cDraft (by decide)
